import Mathlib

/-!
# Verification of the Marlin UBL mesh / Z-correction core

Shallow embedding of `src/Marlin/src/feature/bedlevel/ubl/ubl.h`
(class `unified_bed_leveling`).

Modelling choices:
* `float` values that can be NaN (mesh heights, correction results) are
  `Option ℚ`: `none` is the NaN sentinel, `some q` a finite value.
  Arithmetic on them propagates `none` exactly as IEEE arithmetic
  propagates NaN through `+ - * /`.  Finite coordinates are plain `ℚ`
  (the claims quantify over finite positions only).
* Compile-time configuration macros (`GRID_MAX_POINTS_X/Y`,
  `MESH_MIN_X/MAX_X/MIN_Y/MAX_Y`, the optional
  `UBL_Z_RAISE_WHEN_OFF_MESH`) become fields of a `MeshConfig` record;
  `#ifdef UBL_Z_RAISE_WHEN_OFF_MESH` is `Option ℚ` (`some r` = defined).
* The C++ float-to-`int8_t` cast truncates toward zero; a conversion
  whose value does not fit `int8_t` is undefined behaviour in C++, so
  the model uses unbounded `ℤ` truncation (`ftrunc`).
* `z_values` (a `bed_mesh_t`, i.e. `float[NX][NY]`) is a total function
  `ℤ → ℤ → Option ℚ`; claim C9 proves every index the queries use is
  inside `[0,NX-1] × [0,NY-1]`, so totalising the array is harmless.
-/

namespace UBL

/-- Compile-time grid configuration: `GRID_MAX_POINTS_X/Y`,
`MESH_MIN_X/MAX_X`, `MESH_MIN_Y/MAX_Y`, and the optional
`UBL_Z_RAISE_WHEN_OFF_MESH` macro (`none` when not defined). -/
structure MeshConfig where
  nx : ℤ
  ny : ℤ
  minX : ℚ
  maxX : ℚ
  minY : ℚ
  maxY : ℚ
  raiseOffMesh : Option ℚ

/-- The spec's grid invariants (§3): at least 2 points per axis and a
nondegenerate physical span. -/
def MeshConfig.Valid (c : MeshConfig) : Prop :=
  2 ≤ c.nx ∧ 2 ≤ c.ny ∧ c.minX < c.maxX ∧ c.minY < c.maxY

/-- Macro `RECIPROCAL(x)` = `1/x`. -/
def RECIPROCAL (q : ℚ) : ℚ := 1 / q

/-- Macro `MESH_X_DIST = (MESH_MAX_X - MESH_MIN_X) / (GRID_MAX_POINTS_X - 1)`. -/
def MeshConfig.xdist (c : MeshConfig) : ℚ := (c.maxX - c.minX) / ((c.nx : ℚ) - 1)

/-- Macro `MESH_Y_DIST = (MESH_MAX_Y - MESH_MIN_Y) / (GRID_MAX_POINTS_Y - 1)`. -/
def MeshConfig.ydist (c : MeshConfig) : ℚ := (c.maxY - c.minY) / ((c.ny : ℚ) - 1)

/-- C++ float-to-integer conversion: truncation toward zero (an
out-of-range `int8_t` conversion is UB, modelled as unbounded `ℤ`). -/
def ftrunc (q : ℚ) : ℤ := if 0 ≤ q then ⌊q⌋ else ⌈q⌉

/-- Marlin's `constrain(amt, low, high)` on integers. -/
def constrain (v lo hi : ℤ) : ℤ := if v < lo then lo else if hi < v then hi else v

/-- Macro `WITHIN(v, lo, hi)` = `v >= lo && v <= hi` for floats. -/
def WITHINq (v lo hi : ℚ) : Bool := decide (lo ≤ v) && decide (v ≤ hi)

/-- Macro `WITHIN(v, lo, hi)` = `v >= lo && v <= hi` for ints. -/
def WITHINi (v lo hi : ℤ) : Bool := decide (lo ≤ v) && decide (v ≤ hi)

/-- Modelled from the spec: the `_mesh_index_to_xpos[]` lookup table is
initialised outside this excerpt; per spec §4.1 the default table holds
the uniform grid-line positions `MESH_MIN_X + i * MESH_X_DIST`, which is
also the source's explicit fallback for `i ≥ GRID_MAX_POINTS_X`, so both
branches of `mesh_index_to_xpos` coincide with this formula. -/
def mesh_index_to_xpos (c : MeshConfig) (i : ℤ) : ℚ := c.minX + i * c.xdist

/-- Modelled from the spec: same as `mesh_index_to_xpos` for the Y axis. -/
def mesh_index_to_ypos (c : MeshConfig) (i : ℤ) : ℚ := c.minY + i * c.ydist

/-- `get_cell_index_x` (ubl.h:121-127):
`constrain((int8_t)((x - MESH_MIN_X) * RECIPROCAL(MESH_X_DIST)), 0, GRID_MAX_POINTS_X - 1)`. -/
def get_cell_index_x (c : MeshConfig) (x : ℚ) : ℤ :=
  let cx := ftrunc ((x - c.minX) * RECIPROCAL c.xdist)
  constrain cx 0 (c.nx - 1)

/-- `get_cell_index_y` (ubl.h:128-134). -/
def get_cell_index_y (c : MeshConfig) (y : ℚ) : ℤ :=
  let cy := ftrunc ((y - c.minY) * RECIPROCAL c.ydist)
  constrain cy 0 (c.ny - 1)

/-- `find_closest_x_index` (ubl.h:136-139): round to nearest grid line,
`-1` when outside `[0, GRID_MAX_POINTS_X - 1]`. -/
def find_closest_x_index (c : MeshConfig) (x : ℚ) : ℤ :=
  let px := ftrunc ((x - c.minX + c.xdist * (1 / 2)) * RECIPROCAL c.xdist)
  if WITHINi px 0 (c.nx - 1) then px else -1

/-- `find_closest_y_index` (ubl.h:141-144). -/
def find_closest_y_index (c : MeshConfig) (y : ℚ) : ℤ :=
  let py := ftrunc ((y - c.minY + c.ydist * (1 / 2)) * RECIPROCAL c.ydist)
  if WITHINi py 0 (c.ny - 1) then py else -1

/-- The pure arithmetic of `calc_z0` (ubl.h:161-163):
`z1 + (z2 - z1) * (a0 - a1) / (a2 - a1)`. -/
def calc_z0q (a0 a1 z1 a2 z2 : ℚ) : ℚ := z1 + (z2 - z1) * (a0 - a1) / (a2 - a1)

/-- `calc_z0` on NaN-able heights: NaN (`none`) in either `z` operand
propagates, exactly as IEEE NaN does through the source formula. -/
def calc_z0 (a0 a1 : ℚ) (z1 : Option ℚ) (a2 : ℚ) (z2 : Option ℚ) : Option ℚ :=
  match z1, z2 with
  | some v1, some v2 => some (calc_z0q a0 a1 v1 a2 v2)
  | _, _ => none

/-- `z_correction_for_x_on_horizontal_mesh_line` (ubl.h:169-193).
When an index is out of range it returns `UBL_Z_RAISE_WHEN_OFF_MESH` if
defined, else NaN — i.e. `c.raiseOffMesh` verbatim.  Otherwise
`z1 + xratio * (z_values[min(x1_i, NX-2)+1][yi] - z1)` with NaN
propagation. -/
def z_correction_for_x_on_horizontal_mesh_line
    (c : MeshConfig) (z : ℤ → ℤ → Option ℚ) (rx0 : ℚ) (x1_i yi : ℤ) : Option ℚ :=
  if !WITHINi x1_i 0 (c.nx - 1) || !WITHINi yi 0 (c.ny - 1) then
    c.raiseOffMesh
  else
    let xratio := (rx0 - mesh_index_to_xpos c x1_i) * RECIPROCAL c.xdist
    match z x1_i yi, z (min x1_i (c.nx - 2) + 1) yi with
    | some z1, some zn => some (z1 + xratio * (zn - z1))
    | _, _ => none

/-- `z_correction_for_y_on_vertical_mesh_line` (ubl.h:198-222). -/
def z_correction_for_y_on_vertical_mesh_line
    (c : MeshConfig) (z : ℤ → ℤ → Option ℚ) (ry0 : ℚ) (xi y1_i : ℤ) : Option ℚ :=
  if !WITHINi xi 0 (c.nx - 1) || !WITHINi y1_i 0 (c.ny - 1) then
    c.raiseOffMesh
  else
    let yratio := (ry0 - mesh_index_to_ypos c y1_i) * RECIPROCAL c.ydist
    match z xi y1_i, z xi (min y1_i (c.ny - 2) + 1) with
    | some z1, some zn => some (z1 + yratio * (zn - z1))
    | _, _ => none

/-- The interpolation body of `get_z_correction` (ubl.h:243-276):
two X-interpolations via `calc_z0`, one Y-interpolation, then the final
NaN-to-zero substitution (`if (isnan(z0)) z0 = 0.0`). -/
def gzc_interp (c : MeshConfig) (z : ℤ → ℤ → Option ℚ) (rx0 ry0 : ℚ) : Option ℚ :=
  let cx := get_cell_index_x c rx0
  let cy := get_cell_index_y c ry0
  let x1 := min cx (c.nx - 2) + 1
  let y1 := min cy (c.ny - 2) + 1
  let z1 := calc_z0 rx0 (mesh_index_to_xpos c cx) (z cx cy)
                        (mesh_index_to_xpos c (cx + 1)) (z x1 cy)
  let z2 := calc_z0 rx0 (mesh_index_to_xpos c cx) (z cx y1)
                        (mesh_index_to_xpos c (cx + 1)) (z x1 y1)
  let z0 := calc_z0 ry0 (mesh_index_to_ypos c cy) z1
                        (mesh_index_to_ypos c (cy + 1)) z2
  match z0 with
  | none => some 0
  | some v => some v

/-- `get_z_correction` (ubl.h:230-277).  When `UBL_Z_RAISE_WHEN_OFF_MESH`
is defined (`c.raiseOffMesh = some r`) and the position fails either
`WITHIN` bound check, return `r` at once; otherwise run the
interpolation body. -/
def get_z_correction (c : MeshConfig) (z : ℤ → ℤ → Option ℚ) (rx0 ry0 : ℚ) : Option ℚ :=
  match c.raiseOffMesh with
  | some r =>
      if !WITHINq rx0 c.minX c.maxX || !WITHINq ry0 c.minY c.maxY then some r
      else gzc_interp c z rx0 ry0
  | none => gzc_interp c z rx0 ry0

/-- `mesh_is_valid` (ubl.h:293-298): scan the whole grid, `false` as
soon as one entry `isnan`, else `true`. -/
def mesh_is_valid (c : MeshConfig) (z : ℤ → ℤ → Option ℚ) : Bool :=
  (List.range c.nx.toNat).all fun x =>
    (List.range c.ny.toNat).all fun y => !(z (x : ℤ) (y : ℤ)).isNone

/-- The `z_values` index pairs read by `get_z_correction`
(ubl.h:243-249): `(cx,cy)`, `(min(cx,NX-2)+1, cy)`, `(cx, min(cy,NY-2)+1)`,
`(min(cx,NX-2)+1, min(cy,NY-2)+1)`. -/
def gzc_z_reads (c : MeshConfig) (rx0 ry0 : ℚ) : List (ℤ × ℤ) :=
  let cx := get_cell_index_x c rx0
  let cy := get_cell_index_y c ry0
  let x1 := min cx (c.nx - 2) + 1
  let y1 := min cy (c.ny - 2) + 1
  [(cx, cy), (x1, cy), (cx, y1), (x1, y1)]

/-- The `z_values` index pairs read by
`z_correction_for_x_on_horizontal_mesh_line` (ubl.h:187-190). -/
def zxline_z_reads (c : MeshConfig) (x1_i yi : ℤ) : List (ℤ × ℤ) :=
  [(x1_i, yi), (min x1_i (c.nx - 2) + 1, yi)]

/-- The `z_values` index pairs read by
`z_correction_for_y_on_vertical_mesh_line` (ubl.h:216-219). -/
def zyline_z_reads (c : MeshConfig) (xi y1_i : ℤ) : List (ℤ × ℤ) :=
  [(xi, y1_i), (xi, min y1_i (c.ny - 2) + 1)]

/-- An index pair is inside the `z_values` array bounds
`[0, GRID_MAX_POINTS_X-1] × [0, GRID_MAX_POINTS_Y-1]`. -/
def idx_in_bounds (c : MeshConfig) (p : ℤ × ℤ) : Bool :=
  WITHINi p.1 0 (c.nx - 1) && WITHINi p.2 0 (c.ny - 1)

/-- Modelled from the spec (§4.2, §8): the reference two-stage bilinear
interpolation — linear in X along the bottom and top cell edges with
`xratio = (x - X(cx)) / MESH_X_DIST`, then linear in Y between the two
with `yratio = (y - Y(cy)) / MESH_Y_DIST`. -/
def bilinear_spec (c : MeshConfig) (v00 v10 v01 v11 : ℚ) (cx cy : ℤ) (x y : ℚ) : ℚ :=
  let xr := (x - mesh_index_to_xpos c cx) / c.xdist
  let zb := v00 + (v10 - v00) * xr
  let zt := v01 + (v11 - v01) * xr
  let yr := (y - mesh_index_to_ypos c cy) / c.ydist
  zb + (zt - zb) * yr

/-! ## Concrete instances for witnesses and counterexamples -/

/-- The spec's §8 scenario grid: 3×3 points spanning `[0,200]²`, no
`UBL_Z_RAISE_WHEN_OFF_MESH`. -/
def cfg3 : MeshConfig := ⟨3, 3, 0, 200, 0, 200, none⟩

/-- Same grid with `UBL_Z_RAISE_WHEN_OFF_MESH` defined as `10`. -/
def cfg3raise : MeshConfig := ⟨3, 3, 0, 200, 0, 200, some 10⟩

/-- The spec's §8 scenario mesh: `z[0][0]=1, z[1][0]=2, z[0][1]=3,
z[1][1]=4`, every other point NaN. -/
def zScenario : ℤ → ℤ → Option ℚ := fun i j =>
  if i = 0 ∧ j = 0 then some 1
  else if i = 1 ∧ j = 0 then some 2
  else if i = 0 ∧ j = 1 then some 3
  else if i = 1 ∧ j = 1 then some 4
  else none

/-- The all-NaN mesh. -/
def zAllNaN : ℤ → ℤ → Option ℚ := fun _ _ => none

/-! ## Basic lemmas about the grid geometry -/

theorem xdist_pos (c : MeshConfig) (hc : c.Valid) : 0 < c.xdist := by
  obtain ⟨h2, -, hlt, -⟩ := hc
  have h1 : (0 : ℚ) < (c.nx : ℚ) - 1 := by
    have : (2 : ℚ) ≤ (c.nx : ℚ) := by exact_mod_cast h2
    linarith
  exact div_pos (sub_pos.2 hlt) h1

theorem ydist_pos (c : MeshConfig) (hc : c.Valid) : 0 < c.ydist := by
  obtain ⟨-, h2, -, hlt⟩ := hc
  have h1 : (0 : ℚ) < (c.ny : ℚ) - 1 := by
    have : (2 : ℚ) ≤ (c.ny : ℚ) := by exact_mod_cast h2
    linarith
  exact div_pos (sub_pos.2 hlt) h1

theorem xpos_succ_sub (c : MeshConfig) (i : ℤ) :
    mesh_index_to_xpos c (i + 1) - mesh_index_to_xpos c i = c.xdist := by
  unfold mesh_index_to_xpos
  push_cast
  ring

theorem ypos_succ_sub (c : MeshConfig) (i : ℤ) :
    mesh_index_to_ypos c (i + 1) - mesh_index_to_ypos c i = c.ydist := by
  unfold mesh_index_to_ypos
  push_cast
  ring

/-- The physical position of the last grid line is `MESH_MAX`. -/
theorem xpos_last (c : MeshConfig) (hc : c.Valid) :
    mesh_index_to_xpos c (c.nx - 1) = c.maxX := by
  obtain ⟨h2, -, -, -⟩ := hc
  have h1 : ((c.nx : ℚ) - 1) ≠ 0 := by
    have : (2 : ℚ) ≤ (c.nx : ℚ) := by exact_mod_cast h2
    linarith
  unfold mesh_index_to_xpos MeshConfig.xdist
  push_cast
  field_simp

theorem ypos_last (c : MeshConfig) (hc : c.Valid) :
    mesh_index_to_ypos c (c.ny - 1) = c.maxY := by
  obtain ⟨-, h2, -, -⟩ := hc
  have h1 : ((c.ny : ℚ) - 1) ≠ 0 := by
    have : (2 : ℚ) ≤ (c.ny : ℚ) := by exact_mod_cast h2
    linarith
  unfold mesh_index_to_ypos MeshConfig.ydist
  push_cast
  field_simp

/-- Grid-line positions of in-range indices lie inside `[MESH_MIN, MESH_MAX]`. -/
theorem xpos_mem_span (c : MeshConfig) (hc : c.Valid) (i : ℤ)
    (h0 : 0 ≤ i) (h1 : i ≤ c.nx - 1) :
    c.minX ≤ mesh_index_to_xpos c i ∧ mesh_index_to_xpos c i ≤ c.maxX := by
  have hd := xdist_pos c hc
  constructor
  · unfold mesh_index_to_xpos
    have : (0 : ℚ) ≤ (i : ℚ) * c.xdist :=
      mul_nonneg (by exact_mod_cast h0) hd.le
    linarith
  · have hle : (i : ℚ) * c.xdist ≤ ((c.nx : ℚ) - 1) * c.xdist := by
      have h2 : (i : ℚ) ≤ ((c.nx - 1 : ℤ) : ℚ) := by exact_mod_cast h1
      push_cast at h2
      exact mul_le_mul_of_nonneg_right h2 hd.le
    have hlast := xpos_last c hc
    unfold mesh_index_to_xpos at hlast ⊢
    push_cast at hlast ⊢
    linarith

theorem ypos_mem_span (c : MeshConfig) (hc : c.Valid) (i : ℤ)
    (h0 : 0 ≤ i) (h1 : i ≤ c.ny - 1) :
    c.minY ≤ mesh_index_to_ypos c i ∧ mesh_index_to_ypos c i ≤ c.maxY := by
  have hd := ydist_pos c hc
  constructor
  · unfold mesh_index_to_ypos
    have : (0 : ℚ) ≤ (i : ℚ) * c.ydist :=
      mul_nonneg (by exact_mod_cast h0) hd.le
    linarith
  · have hle : (i : ℚ) * c.ydist ≤ ((c.ny : ℚ) - 1) * c.ydist := by
      have h2 : (i : ℚ) ≤ ((c.ny - 1 : ℤ) : ℚ) := by exact_mod_cast h1
      push_cast at h2
      exact mul_le_mul_of_nonneg_right h2 hd.le
    have hlast := ypos_last c hc
    unfold mesh_index_to_ypos at hlast ⊢
    push_cast at hlast ⊢
    linarith

theorem constrain_mem (v lo hi : ℤ) (h : lo ≤ hi) :
    lo ≤ constrain v lo hi ∧ constrain v lo hi ≤ hi := by
  unfold constrain
  split <;> rename_i h1
  · omega
  · split <;> omega

theorem constrain_eq_self (v lo hi : ℤ) (h1 : lo ≤ v) (h2 : v ≤ hi) :
    constrain v lo hi = v := by
  unfold constrain
  split <;> rename_i h3
  · omega
  · split <;> omega

theorem ftrunc_of_nonneg (q : ℚ) (h : 0 ≤ q) : ftrunc q = ⌊q⌋ := by
  unfold ftrunc
  exact if_pos h

/-- The cell index computed by `get_cell_index_x` lies in `[0, nx-1]`. -/
theorem get_cell_index_x_mem (c : MeshConfig) (hc : c.Valid) (x : ℚ) :
    0 ≤ get_cell_index_x c x ∧ get_cell_index_x c x ≤ c.nx - 1 := by
  unfold get_cell_index_x
  exact constrain_mem _ 0 (c.nx - 1) (by obtain ⟨h2, -, -, -⟩ := hc; omega)

theorem get_cell_index_y_mem (c : MeshConfig) (hc : c.Valid) (y : ℚ) :
    0 ≤ get_cell_index_y c y ∧ get_cell_index_y c y ≤ c.ny - 1 := by
  unfold get_cell_index_y
  exact constrain_mem _ 0 (c.ny - 1) (by obtain ⟨-, h2, -, -⟩ := hc; omega)

/-- In the half-open cell `[xpos i, xpos (i+1))` with `0 ≤ i ≤ nx-1`,
`get_cell_index_x` returns exactly `i`. -/
theorem get_cell_index_x_of_mem (c : MeshConfig) (hc : c.Valid) (i : ℤ) (x : ℚ)
    (h0 : 0 ≤ i) (h1 : i ≤ c.nx - 1)
    (hlo : mesh_index_to_xpos c i ≤ x) (hhi : x < mesh_index_to_xpos c (i + 1)) :
    get_cell_index_x c x = i := by
  have hd := xdist_pos c hc
  have hr : (x - c.minX) * RECIPROCAL c.xdist = (x - c.minX) / c.xdist := by
    unfold RECIPROCAL; rw [mul_one_div]
  have hlo2 : (i : ℚ) ≤ (x - c.minX) / c.xdist := by
    rw [le_div_iff₀ hd]
    unfold mesh_index_to_xpos at hlo
    linarith
  have hhi2 : (x - c.minX) / c.xdist < (i : ℚ) + 1 := by
    rw [div_lt_iff₀ hd]
    unfold mesh_index_to_xpos at hhi
    push_cast at hhi
    linarith
  have hfl : ⌊(x - c.minX) / c.xdist⌋ = i := by
    rw [Int.floor_eq_iff]
    · exact ⟨hlo2, by exact_mod_cast hhi2⟩
  unfold get_cell_index_x
  rw [hr, ftrunc_of_nonneg _ (le_trans (by exact_mod_cast h0) hlo2), hfl]
  exact constrain_eq_self i 0 (c.nx - 1) h0 h1

theorem get_cell_index_y_of_mem (c : MeshConfig) (hc : c.Valid) (i : ℤ) (y : ℚ)
    (h0 : 0 ≤ i) (h1 : i ≤ c.ny - 1)
    (hlo : mesh_index_to_ypos c i ≤ y) (hhi : y < mesh_index_to_ypos c (i + 1)) :
    get_cell_index_y c y = i := by
  have hd := ydist_pos c hc
  have hr : (y - c.minY) * RECIPROCAL c.ydist = (y - c.minY) / c.ydist := by
    unfold RECIPROCAL; rw [mul_one_div]
  have hlo2 : (i : ℚ) ≤ (y - c.minY) / c.ydist := by
    rw [le_div_iff₀ hd]
    unfold mesh_index_to_ypos at hlo
    linarith
  have hhi2 : (y - c.minY) / c.ydist < (i : ℚ) + 1 := by
    rw [div_lt_iff₀ hd]
    unfold mesh_index_to_ypos at hhi
    push_cast at hhi
    linarith
  have hfl : ⌊(y - c.minY) / c.ydist⌋ = i := by
    rw [Int.floor_eq_iff]
    · exact ⟨hlo2, by exact_mod_cast hhi2⟩
  unfold get_cell_index_y
  rw [hr, ftrunc_of_nonneg _ (le_trans (by exact_mod_cast h0) hlo2), hfl]
  exact constrain_eq_self i 0 (c.ny - 1) h0 h1

/-! ## Lemmas about `calc_z0`, `gzc_interp` and `get_z_correction` -/

theorem calc_z0_some (a0 a1 a2 v1 v2 : ℚ) :
    calc_z0 a0 a1 (some v1) a2 (some v2) = some (calc_z0q a0 a1 v1 a2 v2) := rfl

theorem calc_z0_none_left (a0 a1 a2 : ℚ) (z2 : Option ℚ) :
    calc_z0 a0 a1 none a2 z2 = none := by
  cases z2 <;> rfl

theorem calc_z0_none_right (a0 a1 a2 : ℚ) (z1 : Option ℚ) :
    calc_z0 a0 a1 z1 a2 none = none := by
  cases z1 <;> rfl

theorem WITHINq_eq_true (v lo hi : ℚ) (h1 : lo ≤ v) (h2 : v ≤ hi) :
    WITHINq v lo hi = true := by
  simp [WITHINq, h1, h2]

theorem WITHINi_eq_false_iff (v lo hi : ℤ) :
    WITHINi v lo hi = false ↔ v < lo ∨ hi < v := by
  simp [WITHINi]
  omega

theorem WITHINi_eq_true_iff (v lo hi : ℤ) :
    WITHINi v lo hi = true ↔ lo ≤ v ∧ v ≤ hi := by
  simp [WITHINi]

/-- An in-mesh position skips the `UBL_Z_RAISE_WHEN_OFF_MESH` fast path
(also vacuously when the macro is not defined). -/
theorem get_z_correction_in_mesh (c : MeshConfig) (z : ℤ → ℤ → Option ℚ)
    (rx0 ry0 : ℚ) (hx1 : c.minX ≤ rx0) (hx2 : rx0 ≤ c.maxX)
    (hy1 : c.minY ≤ ry0) (hy2 : ry0 ≤ c.maxY) :
    get_z_correction c z rx0 ry0 = gzc_interp c z rx0 ry0 := by
  unfold get_z_correction
  cases hr : c.raiseOffMesh with
  | none => rfl
  | some r =>
      rw [WITHINq_eq_true rx0 c.minX c.maxX hx1 hx2,
          WITHINq_eq_true ry0 c.minY c.maxY hy1 hy2]
      rfl

theorem get_z_correction_no_raise (c : MeshConfig) (z : ℤ → ℤ → Option ℚ)
    (rx0 ry0 : ℚ) (hr : c.raiseOffMesh = none) :
    get_z_correction c z rx0 ry0 = gzc_interp c z rx0 ry0 := by
  unfold get_z_correction
  rw [hr]

/-- Evaluate `gzc_interp` when the four mesh values it reads are finite. -/
theorem gzc_interp_eval (c : MeshConfig) (z : ℤ → ℤ → Option ℚ) (rx0 ry0 : ℚ)
    (cx cy : ℤ) (v00 v10 v01 v11 : ℚ)
    (hcx : get_cell_index_x c rx0 = cx) (hcy : get_cell_index_y c ry0 = cy)
    (h00 : z cx cy = some v00)
    (h10 : z (min cx (c.nx - 2) + 1) cy = some v10)
    (h01 : z cx (min cy (c.ny - 2) + 1) = some v01)
    (h11 : z (min cx (c.nx - 2) + 1) (min cy (c.ny - 2) + 1) = some v11) :
    gzc_interp c z rx0 ry0 =
      some (calc_z0q ry0 (mesh_index_to_ypos c cy)
              (calc_z0q rx0 (mesh_index_to_xpos c cx) v00 (mesh_index_to_xpos c (cx + 1)) v10)
            (mesh_index_to_ypos c (cy + 1))
              (calc_z0q rx0 (mesh_index_to_xpos c cx) v01 (mesh_index_to_xpos c (cx + 1)) v11)) := by
  simp only [gzc_interp]
  rw [hcx, hcy, h00, h10, h01, h11, calc_z0_some, calc_z0_some, calc_z0_some]

/-- If any of the four mesh values read by `gzc_interp` is NaN, the NaN
propagates to `z0` and the final substitution turns it into `0.0`. -/
theorem gzc_interp_of_read_none (c : MeshConfig) (z : ℤ → ℤ → Option ℚ) (rx0 ry0 : ℚ)
    (h : z (get_cell_index_x c rx0) (get_cell_index_y c ry0) = none ∨
         z (min (get_cell_index_x c rx0) (c.nx - 2) + 1) (get_cell_index_y c ry0) = none ∨
         z (get_cell_index_x c rx0) (min (get_cell_index_y c ry0) (c.ny - 2) + 1) = none ∨
         z (min (get_cell_index_x c rx0) (c.nx - 2) + 1)
           (min (get_cell_index_y c ry0) (c.ny - 2) + 1) = none) :
    gzc_interp c z rx0 ry0 = some 0 := by
  simp only [gzc_interp]
  rcases h with h | h | h | h <;> rw [h]
  · rw [calc_z0_none_left, calc_z0_none_left]
  · rw [calc_z0_none_right, calc_z0_none_left]
  · rw [calc_z0_none_left, calc_z0_none_right]
  · rw [calc_z0_none_right, calc_z0_none_right]

/-- `gzc_interp` never returns NaN: the final `isnan` check replaces a
NaN interpolation result by `0.0`. -/
theorem gzc_interp_ne_none (c : MeshConfig) (z : ℤ → ℤ → Option ℚ) (rx0 ry0 : ℚ) :
    gzc_interp c z rx0 ry0 ≠ none := by
  simp only [gzc_interp]
  cases calc_z0 ry0 (mesh_index_to_ypos c (get_cell_index_y c ry0))
      (calc_z0 rx0 (mesh_index_to_xpos c (get_cell_index_x c rx0))
        (z (get_cell_index_x c rx0) (get_cell_index_y c ry0))
        (mesh_index_to_xpos c (get_cell_index_x c rx0 + 1))
        (z (min (get_cell_index_x c rx0) (c.nx - 2) + 1) (get_cell_index_y c ry0)))
      (mesh_index_to_ypos c (get_cell_index_y c ry0 + 1))
      (calc_z0 rx0 (mesh_index_to_xpos c (get_cell_index_x c rx0))
        (z (get_cell_index_x c rx0) (min (get_cell_index_y c ry0) (c.ny - 2) + 1))
        (mesh_index_to_xpos c (get_cell_index_x c rx0 + 1))
        (z (min (get_cell_index_x c rx0) (c.nx - 2) + 1)
           (min (get_cell_index_y c ry0) (c.ny - 2) + 1))) <;> simp

theorem WITHINq_eq_false_iff (v lo hi : ℚ) :
    WITHINq v lo hi = false ↔ v < lo ∨ hi < v := by
  simp only [WITHINq, Bool.and_eq_false_iff, decide_eq_false_iff_not, not_le]

theorem constrain_of_nonpos (v hi : ℤ) (hv : v ≤ 0) (hhi : 0 ≤ hi) :
    constrain v 0 hi = 0 := by
  unfold constrain
  split <;> rename_i h1
  · rfl
  · split <;> omega

theorem constrain_of_ge (v hi : ℤ) (hv : hi ≤ v) (hhi : 0 ≤ hi) :
    constrain v 0 hi = hi := by
  unfold constrain
  split <;> rename_i h1
  · omega
  · split <;> omega

/-- `mesh_is_valid` is the "all grid points finite" predicate. -/
theorem mesh_is_valid_iff (c : MeshConfig) (z : ℤ → ℤ → Option ℚ) :
    mesh_is_valid c z = true ↔
      ∀ xi yi : ℤ, 0 ≤ xi → xi < c.nx → 0 ≤ yi → yi < c.ny → z xi yi ≠ none := by
  unfold mesh_is_valid
  simp only [List.all_eq_true, List.mem_range, Bool.not_eq_true',
    Option.isNone_eq_false_iff, Option.isSome_iff_ne_none]
  constructor
  · intro h xi yi hx0 hx1 hy0 hy1
    have hx : xi.toNat < c.nx.toNat := by omega
    have hy : yi.toNat < c.ny.toNat := by omega
    have := h xi.toNat hx yi.toNat hy
    rwa [Int.toNat_of_nonneg hx0, Int.toNat_of_nonneg hy0] at this
  · intro h x hx y hy
    exact h (x : ℤ) (y : ℤ) (by omega) (by omega) (by omega) (by omega)

/-! ## Bounds of the `z_values` reads (claim C9 infrastructure) -/

theorem gzc_z_reads_in_bounds (c : MeshConfig) (hc : c.Valid) (rx0 ry0 : ℚ) :
    (gzc_z_reads c rx0 ry0).all (idx_in_bounds c) = true := by
  have hx := get_cell_index_x_mem c hc rx0
  have hy := get_cell_index_y_mem c hc ry0
  obtain ⟨h2x, h2y, -, -⟩ := hc
  simp only [gzc_z_reads, List.all_cons, List.all_nil, Bool.and_true,
    idx_in_bounds, WITHINi, Bool.and_eq_true, decide_eq_true_eq]
  omega

theorem zxline_z_reads_in_bounds (c : MeshConfig) (hc : c.Valid) (x1_i yi : ℤ)
    (h1 : WITHINi x1_i 0 (c.nx - 1) = true) (h2 : WITHINi yi 0 (c.ny - 1) = true) :
    (zxline_z_reads c x1_i yi).all (idx_in_bounds c) = true := by
  obtain ⟨h2x, h2y, -, -⟩ := hc
  rw [WITHINi_eq_true_iff] at h1 h2
  simp only [zxline_z_reads, List.all_cons, List.all_nil, Bool.and_true,
    idx_in_bounds, WITHINi, Bool.and_eq_true, decide_eq_true_eq]
  omega

theorem zyline_z_reads_in_bounds (c : MeshConfig) (hc : c.Valid) (xi y1_i : ℤ)
    (h1 : WITHINi xi 0 (c.nx - 1) = true) (h2 : WITHINi y1_i 0 (c.ny - 1) = true) :
    (zyline_z_reads c xi y1_i).all (idx_in_bounds c) = true := by
  obtain ⟨h2x, h2y, -, -⟩ := hc
  rw [WITHINi_eq_true_iff] at h1 h2
  simp only [zyline_z_reads, List.all_cons, List.all_nil, Bool.and_true,
    idx_in_bounds, WITHINi, Bool.and_eq_true, decide_eq_true_eq]
  omega

/-! ## Stateful view (claim C10 infrastructure)

The C++ queries are member functions of `unified_bed_leveling`, whose
only mesh state is the static `z_values` array; a member function could
in principle assign to it (`set_z` does).  To state the frame property
the queries are wrapped as explicit state transformers returning the
result together with the (unchanged) state. -/

/-- The mutable mesh state of `unified_bed_leveling`: `z_values`. -/
structure UBLState where
  z_values : ℤ → ℤ → Option ℚ

/-- `set_z` (ubl.h:119), the mesh mutator: `z_values[px][py] = z`. -/
def set_z (s : UBLState) (px py : ℤ) (v : Option ℚ) : UBLState :=
  ⟨fun a b => if a = px ∧ b = py then v else s.z_values a b⟩

/-- `get_z_correction` as a state transformer: its body only reads
`z_values` (ubl.h:230-277 contains no assignment), so the state
component is returned unchanged. -/
def get_z_correction_st (c : MeshConfig) (s : UBLState) (rx0 ry0 : ℚ) :
    Option ℚ × UBLState :=
  (get_z_correction c s.z_values rx0 ry0, s)

/-- `mesh_is_valid` as a state transformer (read-only). -/
def mesh_is_valid_st (c : MeshConfig) (s : UBLState) : Bool × UBLState :=
  (mesh_is_valid c s.z_values, s)

/-- `get_cell_index_x` as a state transformer (touches no mesh state). -/
def get_cell_index_x_st (c : MeshConfig) (s : UBLState) (x : ℚ) : ℤ × UBLState :=
  (get_cell_index_x c x, s)

/-- `get_cell_index_y` as a state transformer (touches no mesh state). -/
def get_cell_index_y_st (c : MeshConfig) (s : UBLState) (y : ℚ) : ℤ × UBLState :=
  (get_cell_index_y c y, s)

/-- `find_closest_x_index` as a state transformer (touches no mesh state). -/
def find_closest_x_index_st (c : MeshConfig) (s : UBLState) (x : ℚ) : ℤ × UBLState :=
  (find_closest_x_index c x, s)

/-- `find_closest_y_index` as a state transformer (touches no mesh state). -/
def find_closest_y_index_st (c : MeshConfig) (s : UBLState) (y : ℚ) : ℤ × UBLState :=
  (find_closest_y_index c y, s)

/-- `mesh_index_to_xpos` as a state transformer (touches no mesh state). -/
def mesh_index_to_xpos_st (c : MeshConfig) (s : UBLState) (i : ℤ) : ℚ × UBLState :=
  (mesh_index_to_xpos c i, s)

/-- `mesh_index_to_ypos` as a state transformer (touches no mesh state). -/
def mesh_index_to_ypos_st (c : MeshConfig) (s : UBLState) (i : ℤ) : ℚ × UBLState :=
  (mesh_index_to_ypos c i, s)

/-! ## Cell-index clamping facts (claim C1 infrastructure) -/

theorem get_cell_index_x_eq_floor_clamped (c : MeshConfig) (hc : c.Valid) (x : ℚ) :
    get_cell_index_x c x = constrain ⌊(x - c.minX) / c.xdist⌋ 0 (c.nx - 1) := by
  have hrw : (x - c.minX) * RECIPROCAL c.xdist = (x - c.minX) / c.xdist := by
    unfold RECIPROCAL; rw [mul_one_div]
  obtain ⟨h2x, -, -, -⟩ := hc
  unfold get_cell_index_x
  rw [hrw]
  by_cases h : 0 ≤ (x - c.minX) / c.xdist
  · rw [ftrunc_of_nonneg _ h]
  · have hle : (x - c.minX) / c.xdist ≤ 0 := (not_le.1 h).le
    unfold ftrunc
    rw [if_neg h, constrain_of_nonpos _ _ (Int.ceil_le.2 (by exact_mod_cast hle)) (by omega),
        constrain_of_nonpos _ _ (Int.floor_nonpos hle) (by omega)]

theorem get_cell_index_y_eq_floor_clamped (c : MeshConfig) (hc : c.Valid) (y : ℚ) :
    get_cell_index_y c y = constrain ⌊(y - c.minY) / c.ydist⌋ 0 (c.ny - 1) := by
  have hrw : (y - c.minY) * RECIPROCAL c.ydist = (y - c.minY) / c.ydist := by
    unfold RECIPROCAL; rw [mul_one_div]
  obtain ⟨-, h2y, -, -⟩ := hc
  unfold get_cell_index_y
  rw [hrw]
  by_cases h : 0 ≤ (y - c.minY) / c.ydist
  · rw [ftrunc_of_nonneg _ h]
  · have hle : (y - c.minY) / c.ydist ≤ 0 := (not_le.1 h).le
    unfold ftrunc
    rw [if_neg h, constrain_of_nonpos _ _ (Int.ceil_le.2 (by exact_mod_cast hle)) (by omega),
        constrain_of_nonpos _ _ (Int.floor_nonpos hle) (by omega)]

theorem get_cell_index_x_below (c : MeshConfig) (hc : c.Valid) (x : ℚ)
    (h : x < c.minX) : get_cell_index_x c x = 0 := by
  have hd := xdist_pos c hc
  have hneg : (x - c.minX) / c.xdist < 0 :=
    div_neg_of_neg_of_pos (sub_neg.2 h) hd
  rw [get_cell_index_x_eq_floor_clamped c hc x]
  obtain ⟨h2x, -, -, -⟩ := hc
  exact constrain_of_nonpos _ _ (Int.floor_nonpos hneg.le) (by omega)

theorem get_cell_index_y_below (c : MeshConfig) (hc : c.Valid) (y : ℚ)
    (h : y < c.minY) : get_cell_index_y c y = 0 := by
  have hd := ydist_pos c hc
  have hneg : (y - c.minY) / c.ydist < 0 :=
    div_neg_of_neg_of_pos (sub_neg.2 h) hd
  rw [get_cell_index_y_eq_floor_clamped c hc y]
  obtain ⟨-, h2y, -, -⟩ := hc
  exact constrain_of_nonpos _ _ (Int.floor_nonpos hneg.le) (by omega)

theorem get_cell_index_x_above (c : MeshConfig) (hc : c.Valid) (x : ℚ)
    (h : c.maxX < x) : get_cell_index_x c x = c.nx - 1 := by
  have hd := xdist_pos c hc
  have hfloor := get_cell_index_x_eq_floor_clamped c hc x
  obtain ⟨h2x, -, hlt, -⟩ := hc
  have hn1 : ((c.nx : ℚ) - 1) ≠ 0 := by
    have : (2 : ℚ) ≤ (c.nx : ℚ) := by exact_mod_cast h2x
    linarith
  have hprod : ((c.nx : ℚ) - 1) * c.xdist = c.maxX - c.minX := by
    unfold MeshConfig.xdist
    field_simp
  have hgt : ((c.nx : ℚ) - 1) < (x - c.minX) / c.xdist := by
    rw [lt_div_iff₀ hd, hprod]
    linarith
  have hfl : (c.nx - 1 : ℤ) ≤ ⌊(x - c.minX) / c.xdist⌋ := by
    rw [Int.le_floor]
    push_cast
    linarith
  rw [hfloor]
  exact constrain_of_ge _ _ hfl (by omega)

theorem get_cell_index_y_above (c : MeshConfig) (hc : c.Valid) (y : ℚ)
    (h : c.maxY < y) : get_cell_index_y c y = c.ny - 1 := by
  have hd := ydist_pos c hc
  have hfloor := get_cell_index_y_eq_floor_clamped c hc y
  obtain ⟨-, h2y, -, hlt⟩ := hc
  have hn1 : ((c.ny : ℚ) - 1) ≠ 0 := by
    have : (2 : ℚ) ≤ (c.ny : ℚ) := by exact_mod_cast h2y
    linarith
  have hprod : ((c.ny : ℚ) - 1) * c.ydist = c.maxY - c.minY := by
    unfold MeshConfig.ydist
    field_simp
  have hgt : ((c.ny : ℚ) - 1) < (y - c.minY) / c.ydist := by
    rw [lt_div_iff₀ hd, hprod]
    linarith
  have hfl : (c.ny - 1 : ℤ) ≤ ⌊(y - c.minY) / c.ydist⌋ := by
    rw [Int.le_floor]
    push_cast
    linarith
  rw [hfloor]
  exact constrain_of_ge _ _ hfl (by omega)

/-! ## Claim theorems -/

/-- C1 counterexample: the claim says the cell-index lookup is clamped
into `[0, GRID_MAX_POINTS-2]` and never returns an index outside it.
On the 3×3 grid spanning `[0,200]`, `get_cell_index_x(300)` (a position
beyond `MESH_MAX_X`) returns `2 = GRID_MAX_POINTS_X - 1`, which is
outside the claimed range `[0, 1]`. -/
theorem claim_C1_cex :
    get_cell_index_x cfg3 300 = cfg3.nx - 1 ∧
    ¬ get_cell_index_x cfg3 300 ≤ cfg3.nx - 2 := by
  have h : get_cell_index_x cfg3 300 = 2 := by
    norm_num [get_cell_index_x, ftrunc, constrain, RECIPROCAL, MeshConfig.xdist, cfg3]
  refine ⟨?_, ?_⟩ <;> rw [h] <;> norm_num [cfg3]

/-- C1 (amended): for every finite position, `get_cell_index_x` (resp.
`get_cell_index_y`) returns `floor((pos - MESH_MIN)/MESH_DIST)` clamped
into `[0, GRID_MAX_POINTS-1]` (not `GRID_MAX_POINTS-2` as claimed); in
particular positions below `MESH_MIN` map to boundary index `0`,
positions above `MESH_MAX` to boundary index `GRID_MAX_POINTS-1`, and
the result never leaves `[0, GRID_MAX_POINTS-1]`. -/
theorem claim_C1_cell_index_clamped (c : MeshConfig) (hc : c.Valid) (x y : ℚ) :
    get_cell_index_x c x = constrain ⌊(x - c.minX) / c.xdist⌋ 0 (c.nx - 1) ∧
    0 ≤ get_cell_index_x c x ∧ get_cell_index_x c x ≤ c.nx - 1 ∧
    (x < c.minX → get_cell_index_x c x = 0) ∧
    (c.maxX < x → get_cell_index_x c x = c.nx - 1) ∧
    get_cell_index_y c y = constrain ⌊(y - c.minY) / c.ydist⌋ 0 (c.ny - 1) ∧
    0 ≤ get_cell_index_y c y ∧ get_cell_index_y c y ≤ c.ny - 1 ∧
    (y < c.minY → get_cell_index_y c y = 0) ∧
    (c.maxY < y → get_cell_index_y c y = c.ny - 1) :=
  ⟨get_cell_index_x_eq_floor_clamped c hc x,
   (get_cell_index_x_mem c hc x).1, (get_cell_index_x_mem c hc x).2,
   fun h => get_cell_index_x_below c hc x h,
   fun h => get_cell_index_x_above c hc x h,
   get_cell_index_y_eq_floor_clamped c hc y,
   (get_cell_index_y_mem c hc y).1, (get_cell_index_y_mem c hc y).2,
   fun h => get_cell_index_y_below c hc y h,
   fun h => get_cell_index_y_above c hc y h⟩

/-- C1 witness: the amended theorem applied on the 3×3 `[0,200]²` grid
at `x = 300` and `y = -50`. -/
theorem claim_C1_witness :
    cfg3.Valid ∧
    (get_cell_index_x cfg3 300 = constrain ⌊((300 : ℚ) - cfg3.minX) / cfg3.xdist⌋ 0 (cfg3.nx - 1) ∧
     0 ≤ get_cell_index_x cfg3 300 ∧ get_cell_index_x cfg3 300 ≤ cfg3.nx - 1 ∧
     ((300 : ℚ) < cfg3.minX → get_cell_index_x cfg3 300 = 0) ∧
     (cfg3.maxX < 300 → get_cell_index_x cfg3 300 = cfg3.nx - 1) ∧
     get_cell_index_y cfg3 (-50) = constrain ⌊((-50 : ℚ) - cfg3.minY) / cfg3.ydist⌋ 0 (cfg3.ny - 1) ∧
     0 ≤ get_cell_index_y cfg3 (-50) ∧ get_cell_index_y cfg3 (-50) ≤ cfg3.ny - 1 ∧
     ((-50 : ℚ) < cfg3.minY → get_cell_index_y cfg3 (-50) = 0) ∧
     (cfg3.maxY < -50 → get_cell_index_y cfg3 (-50) = cfg3.ny - 1)) :=
  ⟨by norm_num [MeshConfig.Valid, cfg3],
   claim_C1_cell_index_clamped cfg3 (by norm_num [MeshConfig.Valid, cfg3]) 300 (-50)⟩

/-- C8: the nearest-index lookup applied to a valid grid index's own
physical position reproduces the index, on both axes. -/
theorem claim_C8_round_trip (c : MeshConfig) (hc : c.Valid) (i j : ℤ)
    (hi0 : 0 ≤ i) (hi1 : i ≤ c.nx - 1) (hj0 : 0 ≤ j) (hj1 : j ≤ c.ny - 1) :
    find_closest_x_index c (mesh_index_to_xpos c i) = i ∧
    find_closest_y_index c (mesh_index_to_ypos c j) = j := by
  have hdx := (xdist_pos c hc).ne'
  have hdy := (ydist_pos c hc).ne'
  constructor
  · have harg : (mesh_index_to_xpos c i - c.minX + c.xdist * (1 / 2)) * RECIPROCAL c.xdist
        = (i : ℚ) + 1 / 2 := by
      unfold mesh_index_to_xpos RECIPROCAL
      field_simp
      ring
    have htr : ftrunc ((i : ℚ) + 1 / 2) = i := by
      rw [ftrunc_of_nonneg]
      · rw [Int.floor_eq_iff]
        constructor
        · linarith
        · linarith
      · have : (0 : ℚ) ≤ (i : ℚ) := by exact_mod_cast hi0
        linarith
    unfold find_closest_x_index
    rw [harg, htr, if_pos ((WITHINi_eq_true_iff i 0 (c.nx - 1)).2 ⟨hi0, hi1⟩)]
  · have harg : (mesh_index_to_ypos c j - c.minY + c.ydist * (1 / 2)) * RECIPROCAL c.ydist
        = (j : ℚ) + 1 / 2 := by
      unfold mesh_index_to_ypos RECIPROCAL
      field_simp
      ring
    have htr : ftrunc ((j : ℚ) + 1 / 2) = j := by
      rw [ftrunc_of_nonneg]
      · rw [Int.floor_eq_iff]
        constructor
        · linarith
        · linarith
      · have : (0 : ℚ) ≤ (j : ℚ) := by exact_mod_cast hj0
        linarith
    unfold find_closest_y_index
    rw [harg, htr, if_pos ((WITHINi_eq_true_iff j 0 (c.ny - 1)).2 ⟨hj0, hj1⟩)]

/-- C8 witness: round trip at indices `i = 1`, `j = 2` on the 3×3 grid. -/
theorem claim_C8_witness :
    (cfg3.Valid ∧ (0 : ℤ) ≤ 1 ∧ (1 : ℤ) ≤ cfg3.nx - 1 ∧ (0 : ℤ) ≤ 2 ∧ (2 : ℤ) ≤ cfg3.ny - 1) ∧
    (find_closest_x_index cfg3 (mesh_index_to_xpos cfg3 1) = 1 ∧
     find_closest_y_index cfg3 (mesh_index_to_ypos cfg3 2) = 2) :=
  ⟨⟨by norm_num [MeshConfig.Valid, cfg3], by norm_num, by norm_num [cfg3],
    by norm_num, by norm_num [cfg3]⟩,
   claim_C8_round_trip cfg3 (by norm_num [MeshConfig.Valid, cfg3]) 1 2
     (by norm_num) (by norm_num [cfg3]) (by norm_num) (by norm_num [cfg3])⟩

/-- C4: when an index argument of a single-axis helper lies outside
`[0, GRID_MAX_POINTS-1]` on its axis, the helper returns
`UBL_Z_RAISE_WHEN_OFF_MESH` when that macro is defined and NaN
otherwise (`c.raiseOffMesh` covers both cases: `some raise` / `none`),
for every mesh: no index clamping and no NaN-to-zero substitution
happens on this path. -/
theorem claim_C4_line_helpers_off_mesh (c : MeshConfig) (z : ℤ → ℤ → Option ℚ)
    (rx0 ry0 : ℚ) (x1_i yi xi y1_i : ℤ)
    (h1 : x1_i < 0 ∨ c.nx - 1 < x1_i ∨ yi < 0 ∨ c.ny - 1 < yi)
    (h2 : xi < 0 ∨ c.nx - 1 < xi ∨ y1_i < 0 ∨ c.ny - 1 < y1_i) :
    z_correction_for_x_on_horizontal_mesh_line c z rx0 x1_i yi = c.raiseOffMesh ∧
    z_correction_for_y_on_vertical_mesh_line c z ry0 xi y1_i = c.raiseOffMesh := by
  constructor
  · have hb : (!WITHINi x1_i 0 (c.nx - 1) || !WITHINi yi 0 (c.ny - 1)) = true := by
      simp only [Bool.or_eq_true, Bool.not_eq_true', WITHINi_eq_false_iff]
      omega
    unfold z_correction_for_x_on_horizontal_mesh_line
    rw [if_pos hb]
  · have hb : (!WITHINi xi 0 (c.nx - 1) || !WITHINi y1_i 0 (c.ny - 1)) = true := by
      simp only [Bool.or_eq_true, Bool.not_eq_true', WITHINi_eq_false_iff]
      omega
    unfold z_correction_for_y_on_vertical_mesh_line
    rw [if_pos hb]

/-- C4 witness: on the 3×3 grid without `UBL_Z_RAISE_WHEN_OFF_MESH`,
out-of-range indices `x1_i = 5` resp. `y1_i = -1` give back `none`
(NaN), not a clamped interpolation. -/
theorem claim_C4_witness :
    ((5 : ℤ) < 0 ∨ cfg3.nx - 1 < 5 ∨ (0 : ℤ) < 0 ∨ cfg3.ny - 1 < 0) ∧
    ((0 : ℤ) < 0 ∨ cfg3.nx - 1 < 0 ∨ (-1 : ℤ) < 0 ∨ cfg3.ny - 1 < -1) ∧
    (z_correction_for_x_on_horizontal_mesh_line cfg3 zScenario 50 5 0 = cfg3.raiseOffMesh ∧
     z_correction_for_y_on_vertical_mesh_line cfg3 zScenario 50 0 (-1) = cfg3.raiseOffMesh) :=
  ⟨by norm_num [cfg3], by norm_num,
   claim_C4_line_helpers_off_mesh cfg3 zScenario 50 50 5 0 0 (-1)
     (by norm_num [cfg3]) (by norm_num)⟩

/-- C6: with `UBL_Z_RAISE_WHEN_OFF_MESH = r` configured, every position
strictly outside `[MESH_MIN, MESH_MAX]` on either axis makes
`get_z_correction` return `r` immediately, for every mesh `z` — the
result does not depend on any mesh value, and no error is raised (the
function is total). -/
theorem claim_C6_off_mesh_raise (c : MeshConfig) (r : ℚ)
    (hr : c.raiseOffMesh = some r) (x y : ℚ)
    (hout : x < c.minX ∨ c.maxX < x ∨ y < c.minY ∨ c.maxY < y) :
    ∀ z : ℤ → ℤ → Option ℚ, get_z_correction c z x y = some r := by
  intro z
  have hb : (!WITHINq x c.minX c.maxX || !WITHINq y c.minY c.maxY) = true := by
    simp only [Bool.or_eq_true, Bool.not_eq_true', WITHINq_eq_false_iff]
    tauto
  unfold get_z_correction
  rw [hr]
  simp [hb]

/-- C6 witness: on the 3×3 grid with raise value `10`, the query
`(300, 50)` (beyond `MESH_MAX_X`) returns `10` for the scenario mesh. -/
theorem claim_C6_witness :
    cfg3raise.raiseOffMesh = some 10 ∧
    ((300 : ℚ) < cfg3raise.minX ∨ cfg3raise.maxX < 300 ∨
     (50 : ℚ) < cfg3raise.minY ∨ cfg3raise.maxY < 50) ∧
    get_z_correction cfg3raise zScenario 300 50 = some 10 :=
  ⟨rfl, Or.inr (Or.inl (by norm_num [cfg3raise])),
   claim_C6_off_mesh_raise cfg3raise 10 rfl 300 50
     (Or.inr (Or.inl (by norm_num [cfg3raise]))) zScenario⟩

/-- The nested `calc_z0` arithmetic of `get_z_correction` equals the
spec's two-stage bilinear formula (exact rational identity). -/
theorem calc_z0q_nested_eq_bilinear (c : MeshConfig) (hc : c.Valid)
    (cx cy : ℤ) (x y v00 v10 v01 v11 : ℚ) :
    calc_z0q y (mesh_index_to_ypos c cy)
      (calc_z0q x (mesh_index_to_xpos c cx) v00 (mesh_index_to_xpos c (cx + 1)) v10)
      (mesh_index_to_ypos c (cy + 1))
      (calc_z0q x (mesh_index_to_xpos c cx) v01 (mesh_index_to_xpos c (cx + 1)) v11)
    = bilinear_spec c v00 v10 v01 v11 cx cy x y := by
  have hdx := (xdist_pos c hc).ne'
  have hdy := (ydist_pos c hc).ne'
  have h1 := xpos_succ_sub c cx
  have h2 := ypos_succ_sub c cy
  unfold calc_z0q bilinear_spec
  rw [h1, h2]
  field_simp

/-- C2: for every position strictly inside a grid cell whose four
corner mesh values are finite, `get_z_correction` equals the two-stage
bilinear interpolation (linear in X along the bottom and top cell
edges, then linear in Y) — an exact rational identity, hence within any
tolerance such as the claimed `1e-5`.  The scenario value `2.5` at
`(50,50)` is checked by the witness. -/
theorem claim_C2_bilinear (c : MeshConfig) (hc : c.Valid) (z : ℤ → ℤ → Option ℚ)
    (cx cy : ℤ) (x y : ℚ) (v00 v10 v01 v11 : ℚ)
    (hcx0 : 0 ≤ cx) (hcx1 : cx ≤ c.nx - 2) (hcy0 : 0 ≤ cy) (hcy1 : cy ≤ c.ny - 2)
    (hx1 : mesh_index_to_xpos c cx < x) (hx2 : x < mesh_index_to_xpos c (cx + 1))
    (hy1 : mesh_index_to_ypos c cy < y) (hy2 : y < mesh_index_to_ypos c (cy + 1))
    (h00 : z cx cy = some v00) (h10 : z (cx + 1) cy = some v10)
    (h01 : z cx (cy + 1) = some v01) (h11 : z (cx + 1) (cy + 1) = some v11) :
    get_z_correction c z x y = some (bilinear_spec c v00 v10 v01 v11 cx cy x y) := by
  have h2x : 2 ≤ c.nx := hc.1
  have h2y : 2 ≤ c.ny := hc.2.1
  have hcx : get_cell_index_x c x = cx :=
    get_cell_index_x_of_mem c hc cx x hcx0 (by omega) hx1.le hx2
  have hcy : get_cell_index_y c y = cy :=
    get_cell_index_y_of_mem c hc cy y hcy0 (by omega) hy1.le hy2
  have hminx : min cx (c.nx - 2) = cx := min_eq_left hcx1
  have hminy : min cy (c.ny - 2) = cy := min_eq_left hcy1
  have hxin := xpos_mem_span c hc cx hcx0 (by omega)
  have hxin1 := xpos_mem_span c hc (cx + 1) (by omega) (by omega)
  have hyin := ypos_mem_span c hc cy hcy0 (by omega)
  have hyin1 := ypos_mem_span c hc (cy + 1) (by omega) (by omega)
  rw [get_z_correction_in_mesh c z x y (le_trans hxin.1 hx1.le)
        (le_trans hx2.le hxin1.2) (le_trans hyin.1 hy1.le) (le_trans hy2.le hyin1.2),
      gzc_interp_eval c z x y cx cy v00 v10 v01 v11 hcx hcy h00
        (by rw [hminx]; exact h10) (by rw [hminy]; exact h01)
        (by rw [hminx, hminy]; exact h11),
      calc_z0q_nested_eq_bilinear c hc cx cy x y v00 v10 v01 v11]

/-- C2 witness: the spec's §8 scenario — 3×3 grid over `[0,200]²` with
corners `1,2,3,4`, query `(50,50)` — gives exactly `2.5`. -/
theorem claim_C2_witness :
    (cfg3.Valid ∧
     mesh_index_to_xpos cfg3 0 < 50 ∧ (50 : ℚ) < mesh_index_to_xpos cfg3 1 ∧
     mesh_index_to_ypos cfg3 0 < 50 ∧ (50 : ℚ) < mesh_index_to_ypos cfg3 1 ∧
     zScenario 0 0 = some 1 ∧ zScenario 1 0 = some 2 ∧
     zScenario 0 1 = some 3 ∧ zScenario 1 1 = some 4) ∧
    get_z_correction cfg3 zScenario 50 50 = some (bilinear_spec cfg3 1 2 3 4 0 0 50 50) ∧
    bilinear_spec cfg3 1 2 3 4 0 0 50 50 = 5 / 2 := by
  have hv : cfg3.Valid := by norm_num [MeshConfig.Valid, cfg3]
  have hx1 : mesh_index_to_xpos cfg3 0 < (50 : ℚ) := by
    norm_num [mesh_index_to_xpos, MeshConfig.xdist, cfg3]
  have hx2 : (50 : ℚ) < mesh_index_to_xpos cfg3 1 := by
    norm_num [mesh_index_to_xpos, MeshConfig.xdist, cfg3]
  have hy1 : mesh_index_to_ypos cfg3 0 < (50 : ℚ) := by
    norm_num [mesh_index_to_ypos, MeshConfig.ydist, cfg3]
  have hy2 : (50 : ℚ) < mesh_index_to_ypos cfg3 1 := by
    norm_num [mesh_index_to_ypos, MeshConfig.ydist, cfg3]
  refine ⟨⟨hv, hx1, hx2, hy1, hy2, rfl, rfl, rfl, rfl⟩, ?_, ?_⟩
  · exact claim_C2_bilinear cfg3 hv zScenario 0 0 50 50 1 2 3 4
      (by norm_num) (by norm_num [cfg3]) (by norm_num) (by norm_num [cfg3])
      hx1 hx2 hy1 hy2 rfl rfl rfl rfl
  · norm_num [bilinear_spec, mesh_index_to_xpos, mesh_index_to_ypos,
      MeshConfig.xdist, MeshConfig.ydist, cfg3]

/-- C5 counterexample: on the 3×3 grid, cell `(0,0)` has the four
finite corners `1,2,3,4` and every other point NaN.  The claim then
requires `get_z_correction` at corner `(1,1)` (physical `(100,100)`) to
return the stored `4.0`; the code instead selects cell `(1,1)` there
(ubl.h:121-134 clamp to index 1), reads the NaN neighbours `z[2][1]`,
`z[1][2]`, `z[2][2]`, and the NaN-to-zero substitution yields `0.0`. -/
theorem claim_C5_cex :
    (zScenario 0 0 = some 1 ∧ zScenario 1 0 = some 2 ∧
     zScenario 0 1 = some 3 ∧ zScenario 1 1 = some 4) ∧
    mesh_index_to_xpos cfg3 1 = 100 ∧ mesh_index_to_ypos cfg3 1 = 100 ∧
    get_z_correction cfg3 zScenario 100 100 = some 0 ∧
    get_z_correction cfg3 zScenario 100 100 ≠ some 4 := by
  have h : get_z_correction cfg3 zScenario 100 100 = some 0 := by
    norm_num [get_z_correction, gzc_interp, get_cell_index_x, get_cell_index_y, ftrunc,
      constrain, RECIPROCAL, MeshConfig.xdist, MeshConfig.ydist, mesh_index_to_xpos,
      mesh_index_to_ypos, calc_z0, calc_z0q, WITHINq, WITHINi, cfg3, zScenario, min_def]
  refine ⟨⟨rfl, rfl, rfl, rfl⟩, ?_, ?_, h, ?_⟩
  · norm_num [mesh_index_to_xpos, MeshConfig.xdist, cfg3]
  · norm_num [mesh_index_to_ypos, MeshConfig.ydist, cfg3]
  · rw [h]
    norm_num

/-- C5 (amended): `get_z_correction` at the exact physical coordinates
of grid point `(xi, yi)` returns exactly the stored `z_values[xi][yi]`
provided the (up to) four values of the cell the lookup actually
selects at that point — `(xi,yi)`, `(min(xi,NX-2)+1, yi)`,
`(xi, min(yi,NY-2)+1)`, `(min(xi,NX-2)+1, min(yi,NY-2)+1)` — are all
finite.  For the lower-left corner `(cx,cy)` of a cell with four finite
corners and `cx ≤ NX-2`, `cy ≤ NY-2`, these are exactly that cell's
corners, so the original claim holds there; at the other three corners
the lookup selects the neighbouring cell and the claim fails when that
cell has NaN points (see the counterexample). -/
theorem claim_C5_corner_exact (c : MeshConfig) (hc : c.Valid) (z : ℤ → ℤ → Option ℚ)
    (xi yi : ℤ) (v00 v10 v01 v11 : ℚ)
    (hx0 : 0 ≤ xi) (hx1 : xi ≤ c.nx - 1) (hy0 : 0 ≤ yi) (hy1 : yi ≤ c.ny - 1)
    (h00 : z xi yi = some v00)
    (h10 : z (min xi (c.nx - 2) + 1) yi = some v10)
    (h01 : z xi (min yi (c.ny - 2) + 1) = some v01)
    (h11 : z (min xi (c.nx - 2) + 1) (min yi (c.ny - 2) + 1) = some v11) :
    get_z_correction c z (mesh_index_to_xpos c xi) (mesh_index_to_ypos c yi)
      = some v00 := by
  have hdx := xdist_pos c hc
  have hdy := ydist_pos c hc
  have hxs := xpos_succ_sub c xi
  have hys := ypos_succ_sub c yi
  have hcx : get_cell_index_x c (mesh_index_to_xpos c xi) = xi :=
    get_cell_index_x_of_mem c hc xi _ hx0 hx1 le_rfl (by linarith)
  have hcy : get_cell_index_y c (mesh_index_to_ypos c yi) = yi :=
    get_cell_index_y_of_mem c hc yi _ hy0 hy1 le_rfl (by linarith)
  have hxin := xpos_mem_span c hc xi hx0 hx1
  have hyin := ypos_mem_span c hc yi hy0 hy1
  rw [get_z_correction_in_mesh c z _ _ hxin.1 hxin.2 hyin.1 hyin.2,
      gzc_interp_eval c z _ _ xi yi v00 v10 v01 v11 hcx hcy h00 h10 h01 h11]
  simp [calc_z0q]

/-- C5 witness: at the lower-left corner `(0,0)` (physical `(0,0)`) of
the scenario cell, whose selected-cell values are the finite corners
`1,2,3,4`, the correction is exactly the stored `1.0`. -/
theorem claim_C5_witness :
    (cfg3.Valid ∧
     zScenario 0 0 = some 1 ∧ zScenario (min 0 (cfg3.nx - 2) + 1) 0 = some 2 ∧
     zScenario 0 (min 0 (cfg3.ny - 2) + 1) = some 3 ∧
     zScenario (min 0 (cfg3.nx - 2) + 1) (min 0 (cfg3.ny - 2) + 1) = some 4) ∧
    get_z_correction cfg3 zScenario (mesh_index_to_xpos cfg3 0) (mesh_index_to_ypos cfg3 0)
      = some 1 := by
  have hv : cfg3.Valid := by norm_num [MeshConfig.Valid, cfg3]
  have h10 : zScenario (min 0 (cfg3.nx - 2) + 1) 0 = some 2 := by
    norm_num [cfg3, zScenario]
  have h01 : zScenario 0 (min 0 (cfg3.ny - 2) + 1) = some 3 := by
    norm_num [cfg3, zScenario]
  have h11 : zScenario (min 0 (cfg3.nx - 2) + 1) (min 0 (cfg3.ny - 2) + 1) = some 4 := by
    norm_num [cfg3, zScenario]
  exact ⟨⟨hv, rfl, h10, h01, h11⟩,
    claim_C5_corner_exact cfg3 hv zScenario 0 0 1 2 3 4
      (by norm_num) (by norm_num [cfg3]) (by norm_num) (by norm_num [cfg3])
      rfl h10 h01 h11⟩

/-- C3: whenever a query reaches the interpolation step (the off-mesh
raise fast path is not taken, either because the macro is undefined or
because the position passes both `WITHIN` checks) and any of the four
mesh values used in the bilinear interpolation is NaN, the NaN
propagates through `calc_z0` and the final substitution makes
`get_z_correction` return exactly `0.0` — never NaN (`none`). -/
theorem claim_C3_nan_gives_zero (c : MeshConfig) (z : ℤ → ℤ → Option ℚ) (x y : ℚ)
    (hfast : c.raiseOffMesh = none ∨
             (c.minX ≤ x ∧ x ≤ c.maxX ∧ c.minY ≤ y ∧ y ≤ c.maxY))
    (hnan : z (get_cell_index_x c x) (get_cell_index_y c y) = none ∨
            z (min (get_cell_index_x c x) (c.nx - 2) + 1) (get_cell_index_y c y) = none ∨
            z (get_cell_index_x c x) (min (get_cell_index_y c y) (c.ny - 2) + 1) = none ∨
            z (min (get_cell_index_x c x) (c.nx - 2) + 1)
              (min (get_cell_index_y c y) (c.ny - 2) + 1) = none) :
    get_z_correction c z x y = some 0 ∧ get_z_correction c z x y ≠ none := by
  have hi : get_z_correction c z x y = gzc_interp c z x y := by
    rcases hfast with h | ⟨h1, h2, h3, h4⟩
    · exact get_z_correction_no_raise c z x y h
    · exact get_z_correction_in_mesh c z x y h1 h2 h3 h4
  rw [hi, gzc_interp_of_read_none c z x y hnan]
  exact ⟨rfl, by simp⟩

/-- C3 witness: at `(150, 50)` on the scenario mesh the interpolation
uses `z[2][0]` (NaN) and the result is exactly `0.0`. -/
theorem claim_C3_witness :
    (cfg3.raiseOffMesh = none ∧
     zScenario (min (get_cell_index_x cfg3 150) (cfg3.nx - 2) + 1)
       (get_cell_index_y cfg3 50) = none) ∧
    (get_z_correction cfg3 zScenario 150 50 = some 0 ∧
     get_z_correction cfg3 zScenario 150 50 ≠ none) := by
  have hz : zScenario (min (get_cell_index_x cfg3 150) (cfg3.nx - 2) + 1)
      (get_cell_index_y cfg3 50) = none := by
    norm_num [get_cell_index_x, get_cell_index_y, ftrunc, constrain, RECIPROCAL,
      MeshConfig.xdist, MeshConfig.ydist, cfg3, zScenario, min_def]
  exact ⟨⟨rfl, hz⟩,
    claim_C3_nan_gives_zero cfg3 zScenario 150 50 (Or.inl rfl) (Or.inr (Or.inl hz))⟩

/-- C7: `mesh_is_valid` returns `true` iff every in-range grid point is
finite (non-NaN); and when every grid point is NaN, `mesh_is_valid`
returns `false` and `get_z_correction` at any in-bounds position
returns exactly `0.0`. -/
theorem claim_C7_mesh_validity (c : MeshConfig) (hc : c.Valid) (z : ℤ → ℤ → Option ℚ) :
    (mesh_is_valid c z = true ↔
       ∀ xi yi : ℤ, 0 ≤ xi → xi < c.nx → 0 ≤ yi → yi < c.ny → z xi yi ≠ none) ∧
    ((∀ xi yi : ℤ, 0 ≤ xi → xi < c.nx → 0 ≤ yi → yi < c.ny → z xi yi = none) →
      mesh_is_valid c z = false ∧
      ∀ x y : ℚ, c.minX ≤ x → x ≤ c.maxX → c.minY ≤ y → y ≤ c.maxY →
        get_z_correction c z x y = some 0) := by
  refine ⟨mesh_is_valid_iff c z, fun hall => ⟨?_, ?_⟩⟩
  · cases hmv : mesh_is_valid c z with
    | false => rfl
    | true =>
        exfalso
        have h2x : 2 ≤ c.nx := hc.1
        have h2y : 2 ≤ c.ny := hc.2.1
        exact (mesh_is_valid_iff c z).1 hmv 0 0 le_rfl (by omega) le_rfl (by omega)
          (hall 0 0 le_rfl (by omega) le_rfl (by omega))
  · intro x y hx1 hx2 hy1 hy2
    have hmx := get_cell_index_x_mem c hc x
    have hmy := get_cell_index_y_mem c hc y
    rw [get_z_correction_in_mesh c z x y hx1 hx2 hy1 hy2,
        gzc_interp_of_read_none c z x y
          (Or.inl (hall _ _ hmx.1 (by omega) hmy.1 (by omega)))]

/-- C7 witness: the all-NaN mesh on the 3×3 grid. -/
theorem claim_C7_witness :
    cfg3.Valid ∧
    ((mesh_is_valid cfg3 zAllNaN = true ↔
        ∀ xi yi : ℤ, 0 ≤ xi → xi < cfg3.nx → 0 ≤ yi → yi < cfg3.ny →
          zAllNaN xi yi ≠ none) ∧
     ((∀ xi yi : ℤ, 0 ≤ xi → xi < cfg3.nx → 0 ≤ yi → yi < cfg3.ny →
          zAllNaN xi yi = none) →
       mesh_is_valid cfg3 zAllNaN = false ∧
       ∀ x y : ℚ, cfg3.minX ≤ x → x ≤ cfg3.maxX → cfg3.minY ≤ y → y ≤ cfg3.maxY →
         get_z_correction cfg3 zAllNaN x y = some 0)) :=
  ⟨by norm_num [MeshConfig.Valid, cfg3],
   claim_C7_mesh_validity cfg3 (by norm_num [MeshConfig.Valid, cfg3]) zAllNaN⟩

/-- C9: every `z_values` access of `get_z_correction` (for any finite
position) and of the two single-axis helpers (whenever their index
guards pass) uses indices inside
`[0, GRID_MAX_POINTS_X-1] × [0, GRID_MAX_POINTS_Y-1]`: the
`_MIN(i, GRID_MAX_POINTS-2)+1` capping keeps the "plus one" neighbour
within the array, so no out-of-bounds read occurs. -/
theorem claim_C9_reads_in_bounds (c : MeshConfig) (hc : c.Valid)
    (rx0 ry0 : ℚ) (x1_i yi xi y1_i : ℤ)
    (hx : WITHINi x1_i 0 (c.nx - 1) = true ∧ WITHINi yi 0 (c.ny - 1) = true)
    (hy : WITHINi xi 0 (c.nx - 1) = true ∧ WITHINi y1_i 0 (c.ny - 1) = true) :
    (gzc_z_reads c rx0 ry0).all (idx_in_bounds c) = true ∧
    (zxline_z_reads c x1_i yi).all (idx_in_bounds c) = true ∧
    (zyline_z_reads c xi y1_i).all (idx_in_bounds c) = true :=
  ⟨gzc_z_reads_in_bounds c hc rx0 ry0,
   zxline_z_reads_in_bounds c hc x1_i yi hx.1 hx.2,
   zyline_z_reads_in_bounds c hc xi y1_i hy.1 hy.2⟩

/-- C9 witness: reads at position `(50, 250)` (beyond `MESH_MAX_Y`, so
the clamp and cap are both exercised) and at guard-passing helper
indices. -/
theorem claim_C9_witness :
    (cfg3.Valid ∧
     (WITHINi 1 0 (cfg3.nx - 1) = true ∧ WITHINi 2 0 (cfg3.ny - 1) = true) ∧
     (WITHINi 0 0 (cfg3.nx - 1) = true ∧ WITHINi 1 0 (cfg3.ny - 1) = true)) ∧
    ((gzc_z_reads cfg3 50 250).all (idx_in_bounds cfg3) = true ∧
     (zxline_z_reads cfg3 1 2).all (idx_in_bounds cfg3) = true ∧
     (zyline_z_reads cfg3 0 1).all (idx_in_bounds cfg3) = true) :=
  ⟨⟨by norm_num [MeshConfig.Valid, cfg3], ⟨by decide, by decide⟩, ⟨by decide, by decide⟩⟩,
   claim_C9_reads_in_bounds cfg3 (by norm_num [MeshConfig.Valid, cfg3]) 50 250 1 2 0 1
     ⟨by decide, by decide⟩ ⟨by decide, by decide⟩⟩

/-- C10: the queries, viewed as state transformers over the mesh state
(`z_values`), return the state unchanged (no mutation), and their
results depend only on the arguments and the mesh contents: two states
with equal `z_values` give identical results (determinism). -/
theorem claim_C10_queries_pure (c : MeshConfig) (s t : UBLState) (x y : ℚ) (i : ℤ)
    (h : s.z_values = t.z_values) :
    (get_z_correction_st c s x y).2 = s ∧
    (mesh_is_valid_st c s).2 = s ∧
    (get_cell_index_x_st c s x).2 = s ∧ (get_cell_index_y_st c s y).2 = s ∧
    (find_closest_x_index_st c s x).2 = s ∧ (find_closest_y_index_st c s y).2 = s ∧
    (mesh_index_to_xpos_st c s i).2 = s ∧ (mesh_index_to_ypos_st c s i).2 = s ∧
    (get_z_correction_st c s x y).1 = (get_z_correction_st c t x y).1 ∧
    (mesh_is_valid_st c s).1 = (mesh_is_valid_st c t).1 ∧
    (get_cell_index_x_st c s x).1 = (get_cell_index_x_st c t x).1 ∧
    (get_cell_index_y_st c s y).1 = (get_cell_index_y_st c t y).1 ∧
    (find_closest_x_index_st c s x).1 = (find_closest_x_index_st c t x).1 ∧
    (find_closest_y_index_st c s y).1 = (find_closest_y_index_st c t y).1 ∧
    (mesh_index_to_xpos_st c s i).1 = (mesh_index_to_xpos_st c t i).1 ∧
    (mesh_index_to_ypos_st c s i).1 = (mesh_index_to_ypos_st c t i).1 := by
  refine ⟨rfl, rfl, rfl, rfl, rfl, rfl, rfl, rfl, ?_, ?_, rfl, rfl, rfl, rfl, rfl, rfl⟩
  · simp only [get_z_correction_st, h]
  · simp only [mesh_is_valid_st, h]

/-- C10 witness: two states holding the same scenario mesh. -/
theorem claim_C10_witness :
    (UBLState.mk zScenario).z_values = (UBLState.mk zScenario).z_values ∧
    ((get_z_correction_st cfg3 (UBLState.mk zScenario) 50 50).2 = UBLState.mk zScenario ∧
     (mesh_is_valid_st cfg3 (UBLState.mk zScenario)).2 = UBLState.mk zScenario ∧
     (get_cell_index_x_st cfg3 (UBLState.mk zScenario) 50).2 = UBLState.mk zScenario ∧
     (get_cell_index_y_st cfg3 (UBLState.mk zScenario) 50).2 = UBLState.mk zScenario ∧
     (find_closest_x_index_st cfg3 (UBLState.mk zScenario) 50).2 = UBLState.mk zScenario ∧
     (find_closest_y_index_st cfg3 (UBLState.mk zScenario) 50).2 = UBLState.mk zScenario ∧
     (mesh_index_to_xpos_st cfg3 (UBLState.mk zScenario) 1).2 = UBLState.mk zScenario ∧
     (mesh_index_to_ypos_st cfg3 (UBLState.mk zScenario) 1).2 = UBLState.mk zScenario ∧
     (get_z_correction_st cfg3 (UBLState.mk zScenario) 50 50).1
       = (get_z_correction_st cfg3 (UBLState.mk zScenario) 50 50).1 ∧
     (mesh_is_valid_st cfg3 (UBLState.mk zScenario)).1
       = (mesh_is_valid_st cfg3 (UBLState.mk zScenario)).1 ∧
     (get_cell_index_x_st cfg3 (UBLState.mk zScenario) 50).1
       = (get_cell_index_x_st cfg3 (UBLState.mk zScenario) 50).1 ∧
     (get_cell_index_y_st cfg3 (UBLState.mk zScenario) 50).1
       = (get_cell_index_y_st cfg3 (UBLState.mk zScenario) 50).1 ∧
     (find_closest_x_index_st cfg3 (UBLState.mk zScenario) 50).1
       = (find_closest_x_index_st cfg3 (UBLState.mk zScenario) 50).1 ∧
     (find_closest_y_index_st cfg3 (UBLState.mk zScenario) 50).1
       = (find_closest_y_index_st cfg3 (UBLState.mk zScenario) 50).1 ∧
     (mesh_index_to_xpos_st cfg3 (UBLState.mk zScenario) 1).1
       = (mesh_index_to_xpos_st cfg3 (UBLState.mk zScenario) 1).1 ∧
     (mesh_index_to_ypos_st cfg3 (UBLState.mk zScenario) 1).1
       = (mesh_index_to_ypos_st cfg3 (UBLState.mk zScenario) 1).1) :=
  ⟨rfl, claim_C10_queries_pure cfg3 (UBLState.mk zScenario) (UBLState.mk zScenario)
     50 50 1 rfl⟩

end UBL
